import Mathlib

/-!
# Verification of the s3-version-restore repository's reconciliation core

Shallow embedding of the four scripts' version-reconciliation logic:

* `s3-restore-deleted.py` — delete-marker removal (classify via the transport's
  `IsLatest` flag, restore by deleting the marker version).
* `s3-version-restore.py` — two modes: delete-marker removal and destructive
  reversion to the previous version (delete the current content version).
* `s3-bulk-restore.py` — classify by stable timestamp-descending sort, restore
  by copying the selected version over the key.
* `b2-bulk-restore.py` — B2 variant of the same sort-based classification,
  restore by `bucket.copy`.

Python dicts are modelled as association lists (`dictFind` / `dictSet`)
preserving insertion order and in-place replacement, matching CPython
semantics. Timestamps are `Nat`. Python's `sorted(key=..., reverse=True)` is a
stable descending sort; `sortDesc` implements it as a stable insertion sort,
which is extensionally the same function (stable sorting by a key is unique).
Storage mutations are recorded as `StoreAction` values, with a boolean oracle
standing for the transport's success/failure on each call; a raised exception
corresponds to the oracle returning `false`.
-/

/-- Lookup in a Python-dict model: first binding of the key wins (insertion
order is preserved and `dictSet` never duplicates a key). -/
def dictFind {α : Type} (d : List (String × α)) (k : String) : Option α :=
  match d with
  | [] => none
  | (k', v) :: rest => if k' == k then some v else dictFind rest k

/-- `d[k] = v` on a Python-dict model: replace in place if the key is present,
otherwise append at the end (CPython insertion-order semantics). -/
def dictSet {α : Type} (d : List (String × α)) (k : String) (v : α) :
    List (String × α) :=
  match d with
  | [] => [(k, v)]
  | (k', v') :: rest =>
    if k' == k then (k, v) :: rest else (k', v') :: dictSet rest k v

/-- Stable insertion of `x` in front of the first element with a strictly
smaller sort key: descending order, ties keep the original (left-first)
order. -/
def insertDesc {α : Type} (ts : α → Nat) (x : α) : List α → List α
  | [] => [x]
  | y :: ys => if ts y ≤ ts x then x :: y :: ys else y :: insertDesc ts x ys

/-- Python's `sorted(lst, key=ts, reverse=True)`: stable sort, descending by
`ts`, ties keeping list order. -/
def sortDesc {α : Type} (ts : α → Nat) (l : List α) : List α :=
  l.foldr (insertDesc ts) []

/-- Python's `str.lower()`, modelled character-wise (the statuses and
confirmation phrases compared here are ASCII). -/
def pyLower (s : String) : String := String.mk (s.data.map Char.toLower)

/-- One entry of the `restorable_files` dict built by `get_restorable_files`
(both scripts). The Python value is a dict whose keys depend on the mode;
every key that may or may not be present is an `Option` field (`none` models
the key being absent from the dict). -/
structure FileInfo where
  delete_marker_id : Option String := none
  deleted_at : Option Nat := none
  current_version_id : Option String := none
  current_size : Option Nat := none
  current_modified : Option Nat := none
  previous_version_id : Option String := none
  size : Option Nat := none
  last_modified : Option Nat := none
  previous_size : Option Nat := none
  previous_modified : Option Nat := none
deriving DecidableEq

/-- An element of a `list_object_versions` page's `Versions` array. -/
structure S3Version where
  key : String
  version_id : String
  size : Nat
  last_modified : Nat
  is_latest : Bool
deriving DecidableEq

/-- An element of a `list_object_versions` page's `DeleteMarkers` array. -/
structure S3DeleteMarker where
  key : String
  version_id : String
  last_modified : Nat
  is_latest : Bool
deriving DecidableEq

/-- One page yielded by the `list_object_versions` paginator. -/
structure S3Page where
  versions : List S3Version
  delete_markers : List S3DeleteMarker
deriving DecidableEq

/-- A storage mutation request issued by an executor. -/
inductive StoreAction where
  | deleteVersion (key version_id : String)
  | copyVersion (key version_id : String)
deriving DecidableEq

/-- Whether a storage mutation deletes a version. -/
def StoreAction.isDelete : StoreAction → Bool
  | .deleteVersion _ _ => true
  | .copyVersion _ _ => false

/-- The object key a storage mutation addresses. -/
def StoreAction.key : StoreAction → String
  | .deleteVersion k _ => k
  | .copyVersion k _ => k

/-- Delete-marker loop body of `get_restorable_files` (delete-marker mode,
identical in s3-restore-deleted.py lines 105-111 and s3-version-restore.py
lines 126-132): a marker with `IsLatest` starts (or resets) the key's entry. -/
def markerStep (d : List (String × FileInfo)) (m : S3DeleteMarker) :
    List (String × FileInfo) :=
  if m.is_latest then
    dictSet d m.key
      { delete_marker_id := some m.version_id, deleted_at := some m.last_modified }
  else d

/-- Version loop body of `get_restorable_files` (delete-marker mode,
s3-restore-deleted.py lines 114-121 and s3-version-restore.py lines 135-142):
every non-latest version of a tracked key overwrites the previous-version
fields via `dict.update` — there is no `'previous_version_id' not in` guard
in this branch. -/
def dmVersionStep (d : List (String × FileInfo)) (v : S3Version) :
    List (String × FileInfo) :=
  match dictFind d v.key with
  | some info =>
    if v.is_latest then d
    else
      dictSet d v.key
        { info with previous_version_id := some v.version_id,
                    size := some v.size, last_modified := some v.last_modified }
  | none => d

/-- Version loop body of `get_restorable_files` (restore-previous mode,
s3-version-restore.py lines 108-123): a latest version starts the key's entry
afresh; the first subsequent non-latest version fills the previous-version
fields, guarded by `'previous_version_id' not in restorable_files[key]`. -/
def prevStep (d : List (String × FileInfo)) (v : S3Version) :
    List (String × FileInfo) :=
  if v.is_latest then
    dictSet d v.key
      { current_version_id := some v.version_id, current_size := some v.size,
        current_modified := some v.last_modified }
  else
    match dictFind d v.key with
    | some info =>
      if info.previous_version_id.isSome then d
      else
        dictSet d v.key
          { info with previous_version_id := some v.version_id,
                      previous_size := some v.size,
                      previous_modified := some v.last_modified }
    | none => d

/-- The page loop of the delete-marker mode: per page, the `DeleteMarkers`
array is processed before the `Versions` array. -/
def dmCollect (pages : List S3Page) : List (String × FileInfo) :=
  pages.foldl
    (fun d page => page.versions.foldl dmVersionStep
      (page.delete_markers.foldl markerStep d)) []

/-- The page loop of the restore-previous mode: only the `Versions` arrays are
consulted; delete markers are ignored entirely in this branch. -/
def prevCollect (pages : List S3Page) : List (String × FileInfo) :=
  pages.foldl (fun d page => page.versions.foldl prevStep d) []

namespace S3RestoreDeleted

/-- `get_restorable_files` of s3-restore-deleted.py: iterate the pages,
tracking keys whose latest record is a delete marker, then keep only the
entries that acquired a `previous_version_id` (line 130). -/
def get_restorable_files (pages : List S3Page) : List (String × FileInfo) :=
  (dmCollect pages).filter (fun kv => kv.2.previous_version_id.isSome)

end S3RestoreDeleted

namespace S3VersionRestore

/-- `get_restorable_files` of s3-version-restore.py: the `restore_previous`
flag selects the branch; both branches end with the same
`'previous_version_id' in v` filter (lines 151-154). -/
def get_restorable_files (pages : List S3Page) (restore_previous : Bool) :
    List (String × FileInfo) :=
  (if restore_previous then prevCollect pages else dmCollect pages).filter
    (fun kv => kv.2.previous_version_id.isSome)

end S3VersionRestore

/-- A record built by `get_file_versions` of s3-bulk-restore.py (lines 83-108):
content versions carry their size, delete markers get `size = 0` and
`is_delete_marker = true`. -/
structure BulkVersion where
  version_id : String
  file_name : String
  timestamp : Nat
  size : Nat
  is_latest : Bool
  is_delete_marker : Bool
deriving DecidableEq

/-- A record built by `get_file_versions` of b2-bulk-restore.py (lines 52-60):
`action` is `"hide"` or `"upload"`. -/
structure B2Version where
  file_id : String
  file_name : String
  timestamp : Nat
  action : String
  size : Nat
deriving DecidableEq

namespace S3BulkRestore

/-- Loop body of `get_latest_live_versions` of s3-bulk-restore.py (lines
130-146): per key, sort the records by timestamp newest-first (stable);
`continue` when the list is empty or its most recent record is not a delete
marker; otherwise select the first non-marker record scanning forward, adding
its size to the running total. -/
def glvStep (acc : List (String × BulkVersion) × Nat)
    (kv : String × List BulkVersion) : List (String × BulkVersion) × Nat :=
  let sorted_versions := sortDesc (fun x => x.timestamp) kv.2
  match sorted_versions.head? with
  | none => acc
  | some v0 =>
    if !v0.is_delete_marker then acc
    else
      match sorted_versions.find? (fun v => !v.is_delete_marker) with
      | some version => (dictSet acc.1 kv.1 version, acc.2 + version.size)
      | none => acc

/-- `get_latest_live_versions` of s3-bulk-restore.py (lines 125-148). -/
def get_latest_live_versions (versions : List (String × List BulkVersion)) :
    List (String × BulkVersion) × Nat :=
  versions.foldl glvStep ([], 0)

/-- The per-key selection implicit in `get_latest_live_versions`: `none` on
both `continue` paths and when the scan finds no content record. -/
def glv_select (lst : List BulkVersion) : Option BulkVersion :=
  let sorted_versions := sortDesc (fun x => x.timestamp) lst
  match sorted_versions.head? with
  | none => none
  | some v0 =>
    if !v0.is_delete_marker then none
    else sorted_versions.find? (fun v => !v.is_delete_marker)

/-- Loop body of `restore_versions` of s3-bulk-restore.py (lines 155-180): in
dry-run mode, nothing but printing; otherwise one `copy_object` per entry,
with per-item exception handling incrementing `failed` and continuing. -/
def restoreStep (copy_object : String → String → Bool) (dry_run : Bool)
    (acc : Nat × Nat × List StoreAction) (kv : String × BulkVersion) :
    Nat × Nat × List StoreAction :=
  if dry_run then acc
  else if copy_object kv.1 kv.2.version_id then
    (acc.1 + 1, acc.2.1, acc.2.2 ++ [.copyVersion kv.1 kv.2.version_id])
  else
    (acc.1, acc.2.1 + 1, acc.2.2 ++ [.copyVersion kv.1 kv.2.version_id])

/-- `restore_versions` of s3-bulk-restore.py (lines 150-186). -/
def restore_versions (copy_object : String → String → Bool)
    (latest_versions : List (String × BulkVersion)) (dry_run : Bool) :
    Nat × Nat × List StoreAction :=
  latest_versions.foldl (restoreStep copy_object dry_run) (0, 0, [])

end S3BulkRestore

namespace B2BulkRestore

/-- `get_latest_live_versions` of b2-bulk-restore.py (lines 68-91): per key,
sort the records by timestamp newest-first (stable); `continue` when the list
is non-empty and its most recent record is not a hide; otherwise select the
first `"upload"` record scanning forward, adding its size to the running
total. An empty list falls through to the (empty) scan. -/
def glvStep (acc : List (String × B2Version) × Nat)
    (kv : String × List B2Version) : List (String × B2Version) × Nat :=
  let sorted_versions := sortDesc (fun x => x.timestamp) kv.2
  if (match sorted_versions.head? with
      | some v0 => v0.action != "hide"
      | none => false) then acc
  else
    match sorted_versions.find? (fun v => v.action == "upload") with
    | some version => (dictSet acc.1 kv.1 version, acc.2 + version.size)
    | none => acc

/-- `get_latest_live_versions` of b2-bulk-restore.py (lines 68-91). -/
def get_latest_live_versions (versions : List (String × List B2Version)) :
    List (String × B2Version) × Nat :=
  versions.foldl glvStep ([], 0)

/-- The per-key selection implicit in b2's `get_latest_live_versions`. -/
def glv_select (lst : List B2Version) : Option B2Version :=
  let sorted_versions := sortDesc (fun x => x.timestamp) lst
  if (match sorted_versions.head? with
      | some v0 => v0.action != "hide"
      | none => false) then none
  else sorted_versions.find? (fun v => v.action == "upload")

/-- Loop body of `unhide_versions` of b2-bulk-restore.py (lines 98-120):
dry-run only prints (with or without verbose, it continues); otherwise one
`bucket.copy` per entry with per-item exception handling. -/
def unhideStep (bucket_copy : String → String → Bool) (dry_run : Bool)
    (acc : Nat × Nat × List StoreAction) (kv : String × B2Version) :
    Nat × Nat × List StoreAction :=
  if dry_run then acc
  else if bucket_copy kv.2.file_id kv.1 then
    (acc.1 + 1, acc.2.1, acc.2.2 ++ [.copyVersion kv.1 kv.2.file_id])
  else
    (acc.1, acc.2.1 + 1, acc.2.2 ++ [.copyVersion kv.1 kv.2.file_id])

/-- `unhide_versions` of b2-bulk-restore.py (lines 93-126). -/
def unhide_versions (bucket_copy : String → String → Bool)
    (latest_versions : List (String × B2Version)) (dry_run : Bool) :
    Nat × Nat × List StoreAction :=
  latest_versions.foldl (unhideStep bucket_copy dry_run) (0, 0, [])

end B2BulkRestore

namespace S3RestoreDeleted

/-- `restore_versions` of s3-restore-deleted.py (lines 132-172): in dry-run
mode nothing is mutated; otherwise, per entry, `delete_object` is called with
the entry's `delete_marker_id` inside a `try` whose `except` increments
`failed` and continues (a missing dict key would also be caught there, before
any request is issued). -/
def restoreStep (delete_object : String → String → Bool) (dry_run : Bool)
    (acc : Nat × Nat × List StoreAction) (kv : String × FileInfo) :
    Nat × Nat × List StoreAction :=
  if dry_run then acc
  else
    match kv.2.delete_marker_id with
    | none => (acc.1, acc.2.1 + 1, acc.2.2)
    | some vid =>
      if delete_object kv.1 vid then
        (acc.1 + 1, acc.2.1, acc.2.2 ++ [.deleteVersion kv.1 vid])
      else
        (acc.1, acc.2.1 + 1, acc.2.2 ++ [.deleteVersion kv.1 vid])

/-- `restore_versions` of s3-restore-deleted.py (lines 132-172). -/
def restore_versions (delete_object : String → String → Bool)
    (files_to_restore : List (String × FileInfo)) (dry_run : Bool) :
    Nat × Nat × List StoreAction :=
  files_to_restore.foldl (restoreStep delete_object dry_run) (0, 0, [])

end S3RestoreDeleted

namespace S3VersionRestore

/-- `restore_versions` of s3-version-restore.py (lines 156-208): in dry-run
mode nothing is mutated; otherwise, per entry, `delete_object` is called with
the current version id (reversion mode) or the delete marker id (delete-marker
mode), inside a `try` whose `except` increments `failed` and continues (a
missing dict key raises `KeyError` before the request, likewise caught). -/
def restoreStep (delete_object : String → String → Bool)
    (restore_previous dry_run : Bool) (acc : Nat × Nat × List StoreAction)
    (kv : String × FileInfo) : Nat × Nat × List StoreAction :=
  if dry_run then acc
  else
    match
      (if restore_previous then kv.2.current_version_id
       else kv.2.delete_marker_id) with
    | none => (acc.1, acc.2.1 + 1, acc.2.2)
    | some vid =>
      if delete_object kv.1 vid then
        (acc.1 + 1, acc.2.1, acc.2.2 ++ [.deleteVersion kv.1 vid])
      else
        (acc.1, acc.2.1 + 1, acc.2.2 ++ [.deleteVersion kv.1 vid])

/-- `restore_versions` of s3-version-restore.py (lines 156-208). -/
def restore_versions (delete_object : String → String → Bool)
    (files_to_restore : List (String × FileInfo))
    (restore_previous dry_run : Bool) : Nat × Nat × List StoreAction :=
  files_to_restore.foldl (restoreStep delete_object restore_previous dry_run)
    (0, 0, [])

/-- The transport's answer to `get_bucket_versioning`: a response (with the
optional `Status` field), a `NotImplemented` client error, or any other client
error (which the Python code re-raises). -/
inductive VersioningResponse where
  | response (status : Option String)
  | notImplementedError
  | otherClientError
deriving DecidableEq

/-- `check_versioning_status` of s3-version-restore.py (lines 46-67, identical
in the two sibling scripts): lowercase the `Status` field (defaulting to the
empty string), accept `enabled` and `suspended`, reject an absent/empty status
and any unexpected one, map `NotImplemented` to rejection, and re-raise (here:
`Except.error`) any other client error. -/
def check_versioning_status (resp : VersioningResponse) : Except Unit Bool :=
  match resp with
  | .response st =>
    let status := pyLower (st.getD "")
    if status == "enabled" then .ok true
    else if status == "suspended" then .ok true
    else if status == "" then .ok false
    else .ok false
  | .notImplementedError => .ok false
  | .otherClientError => .error ()

/-- Outcome of one `main` invocation of s3-version-restore.py, restricted to
the reconciliation pipeline (argument parsing, credential loading and printing
are out of scope; `head_bucket` is assumed to succeed). Only a `completed`
outcome ever ran the executor; every other outcome returned beforehand, so no
mutation was issued. -/
inductive RunOutcome where
  | fatal
  | versioningRefused
  | emptyPlan
  | confirmAborted
  | completed (restored failed : Nat) (calls : List StoreAction)
deriving DecidableEq

/-- The confirmation gate of `main` (lines 371-390): reversion demands the
exact phrase, delete-marker removal a case-insensitive `yes`. -/
def confirmPassed (restore_previous : Bool) (confirm : String) : Bool :=
  if restore_previous then confirm == "PERMANENTLY DELETE VERSIONS"
  else pyLower confirm == "yes"

/-- The part of `main` of s3-version-restore.py after the versioning gate
passes (lines 336-399): build the plan, return early when it is empty, apply
the confirmation gate when `--execute` is given, then run the executor with
`dry_run = not execute`. -/
def proceedRun (pages : List S3Page) (restore_previous execute : Bool)
    (confirm : String) (delete_object : String → String → Bool) : RunOutcome :=
  let files := get_restorable_files pages restore_previous
  if files.isEmpty then .emptyPlan
  else if execute && !confirmPassed restore_previous confirm then
    .confirmAborted
  else
    match restore_versions delete_object files restore_previous (!execute) with
    | (restored, failed, calls) => .completed restored failed calls

/-- `main` of s3-version-restore.py (lines 326-399), from the versioning gate
on: abort with exit code 1 when `check_versioning_status` fails (before any
listing and before any mutation), otherwise continue with `proceedRun`. -/
def main (resp : VersioningResponse) (pages : List S3Page)
    (restore_previous execute : Bool) (confirm : String)
    (delete_object : String → String → Bool) : RunOutcome :=
  match check_versioning_status resp with
  | .error _ => .fatal
  | .ok false => .versioningRefused
  | .ok true => proceedRun pages restore_previous execute confirm delete_object

end S3VersionRestore

/-- Per-key effect of one `prevStep` iteration on the value stored for that
record's own key (the step touches no other key). -/
def prevStepK (o : Option FileInfo) (v : S3Version) : Option FileInfo :=
  if v.is_latest then
    some { current_version_id := some v.version_id, current_size := some v.size,
           current_modified := some v.last_modified }
  else
    match o with
    | some info =>
      if info.previous_version_id.isSome then o
      else
        some { info with previous_version_id := some v.version_id,
                         previous_size := some v.size,
                         previous_modified := some v.last_modified }
    | none => none

/-- The sequence of `Versions` records the restore-previous branch sees for
key `k`, in transport order across all pages. -/
def prevStreamFor (pages : List S3Page) (k : String) : List S3Version :=
  ((pages.map S3Page.versions).flatten).filter (fun v => v.key == k)

/-- The version id the s3-version-restore.py executor reads from a plan entry
(line 191): the current version in reversion mode, the delete marker
otherwise; `none` models the dict key being absent. -/
def vidFor (restore_previous : Bool) (info : FileInfo) : Option String :=
  if restore_previous then info.current_version_id else info.delete_marker_id

/-- Kind of a version record, abstracting a listing's `Versions` elements as
`content` and its `DeleteMarkers` elements as `deleteMarker`. -/
inductive RecKind where
  | content
  | deleteMarker
deriving DecidableEq

/-- One key's history record in the abstract kind/timestamp view used to state
what a sort-by-timestamp classification would inspect. -/
structure KeyRecord where
  kind : RecKind
  version_id : String
  timestamp : Nat
deriving DecidableEq

/-! ## Concrete scenario inputs -/

/-- The spec's scenario A page, in S3 transport order (newest first within a
key): delete marker v3 (latest, t=3), then content v2 (100 B, t=2) and content
v1 (80 B, t=1). -/
def scenarioAPage : S3Page :=
  { versions :=
      [{ key := "A", version_id := "v2", size := 100, last_modified := 2,
         is_latest := false },
       { key := "A", version_id := "v1", size := 80, last_modified := 1,
         is_latest := false }],
    delete_markers :=
      [{ key := "A", version_id := "v3", last_modified := 3,
         is_latest := true }] }

/-- A listing whose `IsLatest` flags disagree with the timestamps: the delete
marker m1 carries `IsLatest` but is older (t=1) than the content version v2
(t=5) that does not. -/
def inconsistentPage : S3Page :=
  { versions :=
      [{ key := "A", version_id := "v2", size := 10, last_modified := 5,
         is_latest := false }],
    delete_markers :=
      [{ key := "A", version_id := "m1", last_modified := 1,
         is_latest := true }] }

/-- The abstract kind/timestamp view of `inconsistentPage`'s records for key
A. -/
def inconsistentRecords : List KeyRecord :=
  [{ kind := RecKind.deleteMarker, version_id := "m1", timestamp := 1 },
   { kind := RecKind.content, version_id := "v2", timestamp := 5 }]

/-- A one-entry delete-marker-removal plan: marker m1 over superseded content
version v1. -/
def markerPlan : List (String × FileInfo) :=
  [("A", { delete_marker_id := some "m1", deleted_at := some 3,
           previous_version_id := some "v1", size := some 80,
           last_modified := some 1 })]

/-- A two-entry delete-marker-removal plan used to exercise per-key failure
isolation. -/
def restorePlanTwoKeys : List (String × FileInfo) :=
  [("A", { delete_marker_id := some "mA", deleted_at := some 2,
           previous_version_id := some "vA", size := some 10,
           last_modified := some 1 }),
   ("B", { delete_marker_id := some "mB", deleted_at := some 2,
           previous_version_id := some "vB", size := some 20,
           last_modified := some 1 })]

/-- The spec's scenario B page: content v2 (50 B, t=2, latest) over content v1
(40 B, t=1). -/
def scenarioBPage : S3Page :=
  { versions :=
      [{ key := "B", version_id := "v2", size := 50, last_modified := 2,
         is_latest := true },
       { key := "B", version_id := "v1", size := 40, last_modified := 1,
         is_latest := false }],
    delete_markers := [] }

/-- The spec's scenario C page: a single content version, no marker. -/
def singleContentPage : S3Page :=
  { versions :=
      [{ key := "C", version_id := "v1", size := 10, last_modified := 1,
         is_latest := true }],
    delete_markers := [] }

/-- Scenario C's single content record in s3-bulk-restore's record shape. -/
def bulkContentC : BulkVersion :=
  { version_id := "v1", file_name := "C", timestamp := 1, size := 10,
    is_latest := true, is_delete_marker := false }

/-- Scenario C's history for s3-bulk-restore. -/
def singleContentBulk : List (String × List BulkVersion) := [("C", [bulkContentC])]

/-- Scenario C's single upload record in b2-bulk-restore's record shape. -/
def b2UploadC : B2Version :=
  { file_id := "f1", file_name := "C", timestamp := 1, action := "upload",
    size := 10 }

/-- Scenario C's history for b2-bulk-restore. -/
def singleContentB2 : List (String × List B2Version) := [("C", [b2UploadC])]

/-- A two-key s3-bulk history: key A has a latest delete marker over two
content versions; key B is live. -/
def demoBulkA : List BulkVersion :=
  [{ version_id := "m3", file_name := "A", timestamp := 3, size := 0,
     is_latest := true, is_delete_marker := true },
   { version_id := "v2", file_name := "A", timestamp := 2, size := 100,
     is_latest := false, is_delete_marker := false },
   { version_id := "v1", file_name := "A", timestamp := 1, size := 80,
     is_latest := false, is_delete_marker := false }]

/-- The full two-key s3-bulk history. -/
def demoBulkVersions : List (String × List BulkVersion) :=
  [("A", demoBulkA),
   ("B", [{ version_id := "u1", file_name := "B", timestamp := 1, size := 7,
            is_latest := true, is_delete_marker := false }])]

/-- A two-key b2 history: key A hidden over two uploads; key B live. -/
def demoB2Versions : List (String × List B2Version) :=
  [("A", [{ file_id := "h3", file_name := "A", timestamp := 3,
            action := "hide", size := 0 },
          { file_id := "u2", file_name := "A", timestamp := 2,
            action := "upload", size := 100 },
          { file_id := "u1", file_name := "A", timestamp := 1,
            action := "upload", size := 80 }]),
   ("B", [{ file_id := "u9", file_name := "B", timestamp := 1,
            action := "upload", size := 7 }])]

/-- An s3-bulk history in which key E has an empty record list. -/
def emptyHistoryBulk : List (String × List BulkVersion) :=
  [("E", []),
   ("A", [{ version_id := "v1", file_name := "A", timestamp := 1, size := 5,
            is_latest := true, is_delete_marker := false }])]

/-- A b2 history in which key E has an empty record list. -/
def emptyHistoryB2 : List (String × List B2Version) :=
  [("E", []),
   ("A", [{ file_id := "u1", file_name := "A", timestamp := 1,
            action := "upload", size := 5 }])]

/-! ## Dictionary lemmas -/

theorem dictFind_dictSet_self {α : Type} (d : List (String × α)) (k : String)
    (v : α) : dictFind (dictSet d k v) k = some v := by
  induction d with
  | nil => simp [dictSet, dictFind]
  | cons hd tl ih =>
    rcases hd with ⟨k', v'⟩
    cases h : k' == k
    · simp [dictSet, dictFind, h, ih]
    · simp [dictSet, dictFind, h]

theorem dictFind_dictSet_ne {α : Type} (d : List (String × α)) (k' k : String)
    (v : α) (h : k' ≠ k) : dictFind (dictSet d k' v) k = dictFind d k := by
  induction d with
  | nil =>
    simp [dictSet, dictFind]
    intro hc
    exact absurd hc h
  | cons hd tl ih =>
    rcases hd with ⟨k'', v''⟩
    cases hc : k'' == k'
    · simp [dictSet, dictFind, hc, ih]
    · have hk : k'' = k' := by simpa using hc
      subst hk
      have : (k'' == k) = false := by simpa using h
      simp [dictSet, dictFind, hc, this]

theorem dictFind_eq_none_of_not_mem {α : Type} (d : List (String × α))
    (k : String) (h : k ∉ d.map Prod.fst) : dictFind d k = none := by
  induction d with
  | nil => rfl
  | cons hd tl ih =>
    rcases hd with ⟨k', v'⟩
    simp only [List.map_cons, List.mem_cons] at h
    push_neg at h
    have : (k' == k) = false := by
      simp only [beq_eq_false_iff_ne]
      exact fun hc => h.1 (hc ▸ rfl)
    simp [dictFind, this, ih h.2]

theorem mem_keys_dictSet {α : Type} (d : List (String × α)) (k : String)
    (v : α) (x : String) :
    x ∈ (dictSet d k v).map Prod.fst → x ∈ d.map Prod.fst ∨ x = k := by
  induction d with
  | nil =>
    intro hx
    simpa [dictSet] using hx
  | cons hd tl ih =>
    rcases hd with ⟨k', v'⟩
    intro hx
    cases hc : k' == k
    · simp only [dictSet, hc] at hx
      simp only [Bool.false_eq_true, if_false, List.map_cons, List.mem_cons]
        at hx
      simp only [List.map_cons, List.mem_cons]
      rcases hx with hx | hx
      · exact Or.inl (Or.inl hx)
      · rcases ih hx with h | h
        · exact Or.inl (Or.inr h)
        · exact Or.inr h
    · simp only [dictSet, hc, if_true, List.map_cons, List.mem_cons] at hx
      simp only [List.map_cons, List.mem_cons]
      rcases hx with hx | hx
      · exact Or.inr hx
      · exact Or.inl (Or.inr hx)

theorem nodup_keys_dictSet {α : Type} (d : List (String × α)) (k : String)
    (v : α) (h : (d.map Prod.fst).Nodup) :
    ((dictSet d k v).map Prod.fst).Nodup := by
  induction d with
  | nil => simp [dictSet]
  | cons hd tl ih =>
    rcases hd with ⟨k', v'⟩
    simp only [List.map_cons, List.nodup_cons] at h
    cases hc : k' == k
    · simp only [dictSet, hc]
      simp only [Bool.false_eq_true, if_false, List.map_cons, List.nodup_cons]
      refine ⟨fun hmem => ?_, ih h.2⟩
      rcases mem_keys_dictSet tl k v k' hmem with hm | hm
      · exact h.1 hm
      · exact absurd hm (by simpa using hc)
    · have hk : k' = k := by simpa using hc
      simp only [dictSet, hc, if_true, List.map_cons, List.nodup_cons]
      rw [← hk]
      exact h

theorem dictSet_eq_append {α : Type} (d : List (String × α)) (k : String)
    (v : α) (h : dictFind d k = none) : dictSet d k v = d ++ [(k, v)] := by
  induction d with
  | nil => rfl
  | cons hd tl ih =>
    rcases hd with ⟨k', v'⟩
    cases hc : k' == k
    · simp only [dictFind, hc, cond_false] at h
      simp [dictSet, hc, ih (by simpa [hc] using h)]
    · simp [dictFind, hc] at h

theorem dictFind_append_none {α : Type} (d d' : List (String × α)) (k : String)
    (h : dictFind d k = none) : dictFind (d ++ d') k = dictFind d' k := by
  induction d with
  | nil => rfl
  | cons hd tl ih =>
    rcases hd with ⟨k', v'⟩
    cases hc : k' == k
    · simp only [dictFind, hc, cond_false] at h
      simpa [dictFind, hc] using ih (by simpa [hc] using h)
    · simp [dictFind, hc] at h

theorem dictFind_filter {α : Type} (p : α → Bool) (d : List (String × α))
    (k : String) (h : (d.map Prod.fst).Nodup) :
    dictFind (d.filter (fun kv => p kv.2)) k =
      match dictFind d k with
      | some v => if p v then some v else none
      | none => none := by
  induction d with
  | nil => rfl
  | cons hd tl ih =>
    rcases hd with ⟨k', v'⟩
    simp only [List.map_cons, List.nodup_cons] at h
    cases hc : k' == k
    · cases hp : p v' <;>
        simp [List.filter_cons, hp, dictFind, hc, ih h.2]
    · have hk : k' = k := by simpa using hc
      cases hp : p v'
      · have hnone : dictFind (tl.filter (fun kv => p kv.2)) k = none := by
          apply dictFind_eq_none_of_not_mem
          intro hmem
          rcases List.mem_map.mp hmem with ⟨kv, hkv, hfst⟩
          refine h.1 ?_
          rw [hk]
          exact List.mem_map.mpr ⟨kv, List.mem_of_mem_filter hkv, hfst⟩
        simp [List.filter_cons, hp, dictFind, hc, hnone]
      · simp [List.filter_cons, hp, dictFind, hc]

/-! ## Sorting lemmas -/

theorem sortDesc_cons {α : Type} (ts : α → Nat) (x : α) (l : List α) :
    sortDesc ts (x :: l) = insertDesc ts x (sortDesc ts l) := rfl

theorem mem_insertDesc {α : Type} (ts : α → Nat) (x : α) (l : List α) (a : α) :
    a ∈ insertDesc ts x l ↔ a = x ∨ a ∈ l := by
  induction l with
  | nil => simp [insertDesc]
  | cons y ys ih =>
    by_cases h : ts y ≤ ts x
    · simp [insertDesc, h]
    · simp only [insertDesc, if_neg h, List.mem_cons, ih]
      tauto

theorem mem_sortDesc {α : Type} (ts : α → Nat) (l : List α) (a : α) :
    a ∈ sortDesc ts l ↔ a ∈ l := by
  induction l with
  | nil => simp [sortDesc]
  | cons x xs ih =>
    rw [sortDesc_cons, mem_insertDesc]
    simp [ih]

/-! ## Per-key behaviour of the restore-previous classification -/

theorem dictFind_prevStep_ne (d : List (String × FileInfo)) (v : S3Version)
    (k : String) (h : v.key ≠ k) :
    dictFind (prevStep d v) k = dictFind d k := by
  unfold prevStep
  cases hl : v.is_latest
  · cases hf : dictFind d v.key
    · simp [hf]
    · rename_i info
      cases hp : info.previous_version_id.isSome
      · simp [hf, hp, dictFind_dictSet_ne d v.key k _ h]
      · simp [hf, hp]
  · simp [dictFind_dictSet_ne d v.key k _ h]

theorem dictFind_prevStep_self (d : List (String × FileInfo)) (v : S3Version) :
    dictFind (prevStep d v) v.key = prevStepK (dictFind d v.key) v := by
  unfold prevStep prevStepK
  cases hl : v.is_latest
  · cases hf : dictFind d v.key
    · simp [hf]
    · rename_i info
      cases hp : info.previous_version_id.isSome
      · simp [hf, hp, dictFind_dictSet_self]
      · simp [hf, hp]
  · simp [dictFind_dictSet_self]

theorem dictFind_foldl_prevStep (vs : List S3Version) :
    ∀ (d : List (String × FileInfo)) (k : String),
      dictFind (vs.foldl prevStep d) k =
        (vs.filter (fun v => v.key == k)).foldl prevStepK (dictFind d k) := by
  induction vs with
  | nil => intro d k; rfl
  | cons v rest ih =>
    intro d k
    rw [List.foldl_cons, ih]
    cases hc : v.key == k
    · simp only [List.filter_cons, hc]
      simp only [Bool.false_eq_true, if_false]
      rw [dictFind_prevStep_ne d v k (by simpa using hc)]
    · have hk : v.key = k := by simpa using hc
      simp only [List.filter_cons, hc, if_true, List.foldl_cons]
      rw [← hk, dictFind_prevStep_self]

theorem nodup_keys_prevStep (d : List (String × FileInfo)) (v : S3Version)
    (h : (d.map Prod.fst).Nodup) : ((prevStep d v).map Prod.fst).Nodup := by
  unfold prevStep
  cases hl : v.is_latest
  · cases hf : dictFind d v.key
    · simpa [hf] using h
    · rename_i info
      cases hp : info.previous_version_id.isSome
      · simp only [hf, hp]
        simp only [Bool.false_eq_true, if_false]
        exact nodup_keys_dictSet d v.key _ h
      · simpa [hf, hp] using h
  · simp only [Bool.false_eq_true, if_true]
    exact nodup_keys_dictSet d v.key _ h

theorem nodup_keys_foldl_prevStep (vs : List S3Version) :
    ∀ (d : List (String × FileInfo)), (d.map Prod.fst).Nodup →
      ((vs.foldl prevStep d).map Prod.fst).Nodup := by
  induction vs with
  | nil => intro d h; exact h
  | cons v rest ih =>
    intro d h
    rw [List.foldl_cons]
    exact ih (prevStep d v) (nodup_keys_prevStep d v h)

theorem prevCollect_eq_flatten (pages : List S3Page) :
    prevCollect pages =
      ((pages.map S3Page.versions).flatten).foldl prevStep [] := by
  suffices h : ∀ (d : List (String × FileInfo)),
      pages.foldl (fun d page => page.versions.foldl prevStep d) d =
        ((pages.map S3Page.versions).flatten).foldl prevStep d from h []
  induction pages with
  | nil => intro d; rfl
  | cons page rest ih =>
    intro d
    simp only [List.foldl_cons, List.map_cons, List.flatten_cons,
      List.foldl_append]
    exact ih (page.versions.foldl prevStep d)

theorem foldl_prevStepK_stable (rs : List S3Version) :
    ∀ (info : FileInfo), (∀ r ∈ rs, r.is_latest = false) →
      info.previous_version_id.isSome = true →
      rs.foldl prevStepK (some info) = some info := by
  induction rs with
  | nil => intro info _ _; rfl
  | cons r rest ih =>
    intro info hall hp
    have hr : r.is_latest = false := hall r (List.mem_cons_self _ _)
    rw [List.foldl_cons]
    have hstep : prevStepK (some info) r = some info := by
      simp [prevStepK, hr, hp]
    rw [hstep]
    exact ih info (fun x hx => hall x (List.mem_cons_of_mem _ hx)) hp

/-! ## Characterization of the sort-based bulk classifiers -/

theorem collect_foldl_aux {ρ : Type} (sel : List ρ → Option ρ) (sz : ρ → Nat)
    (step : (List (String × ρ) × Nat) → (String × List ρ) →
      List (String × ρ) × Nat)
    (hnone : ∀ acc kv, sel kv.2 = none → step acc kv = acc)
    (hsome : ∀ acc kv v, sel kv.2 = some v →
      step acc kv = (dictSet acc.1 kv.1 v, acc.2 + sz v))
    (versions : List (String × List ρ)) :
    ∀ (d : List (String × ρ)) (t : Nat), (versions.map Prod.fst).Nodup →
      (∀ k ∈ versions.map Prod.fst, dictFind d k = none) →
      versions.foldl step (d, t) =
        (d ++ versions.filterMap
            (fun kv => (sel kv.2).map (fun v => (kv.1, v))),
         t + ((versions.filterMap
            (fun kv => (sel kv.2).map (fun v => (kv.1, v)))).map
              (fun kv => sz kv.2)).sum) := by
  induction versions with
  | nil =>
    intro d t _ _
    simp
  | cons kv rest ih =>
    intro d t hn hf
    simp only [List.map_cons, List.nodup_cons] at hn
    cases hs : sel kv.2
    · rw [List.foldl_cons, hnone (d, t) kv hs]
      rw [ih d t hn.2 (fun k hk => hf k (List.mem_cons_of_mem _ hk))]
      simp [List.filterMap_cons, hs]
    · rename_i v
      rw [List.foldl_cons, hsome (d, t) kv v hs]
      have hfresh : dictFind d kv.1 = none := hf kv.1 (List.mem_cons_self _ _)
      rw [dictSet_eq_append d kv.1 v hfresh]
      have hfresh2 : ∀ k ∈ rest.map Prod.fst,
          dictFind (d ++ [(kv.1, v)]) k = none := by
        intro k hk
        rw [dictFind_append_none d _ k (hf k (List.mem_cons_of_mem _ hk))]
        have hne : kv.1 ≠ k := fun hkk => hn.1 (hkk ▸ hk)
        simp [dictFind, hne]
      rw [ih (d ++ [(kv.1, v)]) (t + sz v) hn.2 hfresh2]
      simp [List.filterMap_cons, hs, List.append_assoc, Nat.add_assoc]

theorem mem_keys_filterMap_sel {ρ : Type} (sel : List ρ → Option ρ)
    (versions : List (String × List ρ)) (x : String)
    (hx : x ∈ (versions.filterMap
      (fun kv => (sel kv.2).map (fun v => (kv.1, v)))).map Prod.fst) :
    x ∈ versions.map Prod.fst := by
  induction versions with
  | nil => simp at hx
  | cons kv rest ih =>
    cases hs : sel kv.2
    · simp only [List.filterMap_cons, hs, Option.map_none'] at hx
      simp only [List.map_cons, List.mem_cons]
      exact Or.inr (ih hx)
    · simp only [List.filterMap_cons, hs, Option.map_some', List.map_cons,
        List.mem_cons] at hx
      simp only [List.map_cons, List.mem_cons]
      rcases hx with hx | hx
      · exact Or.inl hx
      · exact Or.inr (ih hx)

theorem dictFind_filterMap_sel {ρ : Type} (sel : List ρ → Option ρ)
    (versions : List (String × List ρ)) (k : String) (lst : List ρ)
    (hn : (versions.map Prod.fst).Nodup) (hmem : (k, lst) ∈ versions) :
    dictFind (versions.filterMap
      (fun kv => (sel kv.2).map (fun v => (kv.1, v)))) k = sel lst := by
  induction versions with
  | nil => cases hmem
  | cons kv rest ih =>
    simp only [List.map_cons, List.nodup_cons] at hn
    rcases List.mem_cons.mp hmem with heq | hmem'
    · rcases kv with ⟨k1, l1⟩
      injection heq.symm with hk1 hl1
      cases hs : sel l1
      · have hknotin : k ∉ rest.map Prod.fst := by
          rw [hk1] at hn
          exact hn.1
        have : dictFind (rest.filterMap
            (fun kv => (sel kv.2).map (fun v => (kv.1, v)))) k = none := by
          apply dictFind_eq_none_of_not_mem
          intro hmem2
          exact hknotin (mem_keys_filterMap_sel sel rest k hmem2)
        simp only [List.filterMap_cons, hs, Option.map_none']
        rw [this, ← hl1, hs]
      · rename_i v
        simp only [List.filterMap_cons, hs, Option.map_some']
        have : (k1 == k) = true := by simp [hk1]
        simp [dictFind, this, ← hl1, hs]
    · have hkin : k ∈ rest.map Prod.fst :=
        List.mem_map.mpr ⟨(k, lst), hmem', rfl⟩
      have hne : kv.1 ≠ k := fun hkk => hn.1 (hkk ▸ hkin)
      cases hs : sel kv.2
      · simp only [List.filterMap_cons, hs, Option.map_none']
        exact ih hn.2 hmem'
      · simp only [List.filterMap_cons, hs, Option.map_some']
        have hbeq : (kv.1 == k) = false := by
          simp only [beq_eq_false_iff_ne]
          exact hne
        simp only [dictFind, hbeq]
        simp only [Bool.false_eq_true, if_false]
        exact ih hn.2 hmem'

theorem s3bulk_glvStep_none (acc : List (String × BulkVersion) × Nat)
    (kv : String × List BulkVersion)
    (hs : S3BulkRestore.glv_select kv.2 = none) :
    S3BulkRestore.glvStep acc kv = acc := by
  unfold S3BulkRestore.glv_select at hs
  unfold S3BulkRestore.glvStep
  cases hh : (sortDesc (fun x => x.timestamp) kv.2).head?
  · simp [hh]
  · rename_i v0
    simp only [hh] at hs
    cases hm : v0.is_delete_marker
    · simp [hh, hm]
    · simp only [hm] at hs
      simp only [Bool.not_true, Bool.false_eq_true, if_false] at hs
      simp [hh, hm, hs]

theorem s3bulk_glvStep_some (acc : List (String × BulkVersion) × Nat)
    (kv : String × List BulkVersion) (v : BulkVersion)
    (hs : S3BulkRestore.glv_select kv.2 = some v) :
    S3BulkRestore.glvStep acc kv = (dictSet acc.1 kv.1 v, acc.2 + v.size) := by
  unfold S3BulkRestore.glv_select at hs
  unfold S3BulkRestore.glvStep
  cases hh : (sortDesc (fun x => x.timestamp) kv.2).head?
  · simp [hh] at hs
  · rename_i v0
    simp only [hh] at hs
    cases hm : v0.is_delete_marker
    · simp [hm] at hs
    · simp only [hm] at hs
      simp only [Bool.not_true, Bool.false_eq_true, if_false] at hs
      simp [hh, hm, hs]

theorem b2_glvStep_none (acc : List (String × B2Version) × Nat)
    (kv : String × List B2Version)
    (hs : B2BulkRestore.glv_select kv.2 = none) :
    B2BulkRestore.glvStep acc kv = acc := by
  unfold B2BulkRestore.glv_select at hs
  unfold B2BulkRestore.glvStep
  cases hh : (sortDesc (fun x => x.timestamp) kv.2).head?
  · simp only [hh] at hs
    simp only [Bool.false_eq_true, if_false] at hs
    simp [hh, hs]
  · rename_i v0
    simp only [hh] at hs
    cases ha : v0.action != "hide"
    · simp only [ha] at hs
      simp only [Bool.false_eq_true, if_false] at hs
      simp [hh, ha, hs]
    · simp [hh, ha]

theorem b2_glvStep_some (acc : List (String × B2Version) × Nat)
    (kv : String × List B2Version) (v : B2Version)
    (hs : B2BulkRestore.glv_select kv.2 = some v) :
    B2BulkRestore.glvStep acc kv = (dictSet acc.1 kv.1 v, acc.2 + v.size) := by
  unfold B2BulkRestore.glv_select at hs
  unfold B2BulkRestore.glvStep
  cases hh : (sortDesc (fun x => x.timestamp) kv.2).head?
  · simp only [hh] at hs
    simp only [Bool.false_eq_true, if_false] at hs
    simp [hh, hs]
  · rename_i v0
    simp only [hh] at hs
    cases ha : v0.action != "hide"
    · simp only [ha] at hs
      simp only [Bool.false_eq_true, if_false] at hs
      simp [hh, ha, hs]
    · simp [ha] at hs

theorem s3bulk_glv_eq (versions : List (String × List BulkVersion))
    (hn : (versions.map Prod.fst).Nodup) :
    S3BulkRestore.get_latest_live_versions versions =
      (versions.filterMap
         (fun kv => (S3BulkRestore.glv_select kv.2).map (fun v => (kv.1, v))),
       ((versions.filterMap
         (fun kv => (S3BulkRestore.glv_select kv.2).map (fun v => (kv.1, v)))).map
           (fun kv => kv.2.size)).sum) := by
  unfold S3BulkRestore.get_latest_live_versions
  rw [collect_foldl_aux S3BulkRestore.glv_select (fun v => v.size)
    S3BulkRestore.glvStep s3bulk_glvStep_none s3bulk_glvStep_some versions [] 0
    hn (fun k _ => rfl)]
  simp

theorem b2_glv_eq (versions : List (String × List B2Version))
    (hn : (versions.map Prod.fst).Nodup) :
    B2BulkRestore.get_latest_live_versions versions =
      (versions.filterMap
         (fun kv => (B2BulkRestore.glv_select kv.2).map (fun v => (kv.1, v))),
       ((versions.filterMap
         (fun kv => (B2BulkRestore.glv_select kv.2).map (fun v => (kv.1, v)))).map
           (fun kv => kv.2.size)).sum) := by
  unfold B2BulkRestore.get_latest_live_versions
  rw [collect_foldl_aux B2BulkRestore.glv_select (fun v => v.size)
    B2BulkRestore.glvStep b2_glvStep_none b2_glvStep_some versions [] 0
    hn (fun k _ => rfl)]
  simp

theorem s3bulk_glv_lookup (versions : List (String × List BulkVersion))
    (k : String) (lst : List BulkVersion)
    (hn : (versions.map Prod.fst).Nodup) (hmem : (k, lst) ∈ versions) :
    dictFind (S3BulkRestore.get_latest_live_versions versions).1 k =
      S3BulkRestore.glv_select lst := by
  rw [s3bulk_glv_eq versions hn]
  exact dictFind_filterMap_sel S3BulkRestore.glv_select versions k lst hn hmem

theorem b2_glv_lookup (versions : List (String × List B2Version))
    (k : String) (lst : List B2Version)
    (hn : (versions.map Prod.fst).Nodup) (hmem : (k, lst) ∈ versions) :
    dictFind (B2BulkRestore.get_latest_live_versions versions).1 k =
      B2BulkRestore.glv_select lst := by
  rw [b2_glv_eq versions hn]
  exact dictFind_filterMap_sel B2BulkRestore.glv_select versions k lst hn hmem

/-! ## Executor lemmas -/

theorem foldl_id_of_step_id {α β : Type} (f : β → α → β)
    (hf : ∀ b a, f b a = b) : ∀ (l : List α) (b : β), l.foldl f b = b := by
  intro l
  induction l with
  | nil => intro b; rfl
  | cons x xs ih =>
    intro b
    rw [List.foldl_cons, hf]
    exact ih b

theorem s3vr_restore_aux (delete_object : String → String → Bool)
    (rp : Bool) (files : List (String × FileInfo)) :
    ∀ (r f : Nat) (c : List StoreAction),
      (∀ kv ∈ files, (vidFor rp kv.2).isSome = true) →
      files.foldl (S3VersionRestore.restoreStep delete_object rp false)
        (r, f, c) =
        (r + files.countP (fun kv =>
            delete_object kv.1 ((vidFor rp kv.2).getD "")),
         f + files.countP (fun kv =>
            !delete_object kv.1 ((vidFor rp kv.2).getD "")),
         c ++ files.map (fun kv =>
            StoreAction.deleteVersion kv.1 ((vidFor rp kv.2).getD ""))) := by
  induction files with
  | nil =>
    intro r f c _
    simp
  | cons kv rest ih =>
    intro r f c hpres
    have hv := hpres kv (List.mem_cons_self _ _)
    rcases hvid : vidFor rp kv.2 with _ | vid
    · rw [hvid] at hv
      simp at hv
    · rw [List.foldl_cons]
      have hsc : (if rp then kv.2.current_version_id
          else kv.2.delete_marker_id) = some vid := hvid
      have hstep : S3VersionRestore.restoreStep delete_object rp false
          (r, f, c) kv =
          if delete_object kv.1 vid then
            (r + 1, f, c ++ [StoreAction.deleteVersion kv.1 vid])
          else (r, f + 1, c ++ [StoreAction.deleteVersion kv.1 vid]) := by
        unfold S3VersionRestore.restoreStep
        rw [hsc]
        simp
      rw [hstep]
      cases hdel : delete_object kv.1 vid
      · simp only [Bool.false_eq_true, if_false]
        rw [ih r (f + 1) (c ++ [StoreAction.deleteVersion kv.1 vid])
          (fun x hx => hpres x (List.mem_cons_of_mem _ hx))]
        simp only [Prod.mk.injEq, List.countP_cons, List.map_cons, hvid,
          Option.getD_some, hdel]
        refine ⟨by simp, by simp; omega, by simp⟩
      · simp only [if_true]
        rw [ih (r + 1) f (c ++ [StoreAction.deleteVersion kv.1 vid])
          (fun x hx => hpres x (List.mem_cons_of_mem _ hx))]
        simp only [Prod.mk.injEq, List.countP_cons, List.map_cons, hvid,
          Option.getD_some, hdel]
        refine ⟨by simp; omega, by simp, by simp⟩

theorem s3rd_restore_aux (delete_object : String → String → Bool)
    (files : List (String × FileInfo)) :
    ∀ (r f : Nat) (c : List StoreAction),
      (∀ kv ∈ files, kv.2.delete_marker_id.isSome = true) →
      files.foldl (S3RestoreDeleted.restoreStep delete_object false)
        (r, f, c) =
        (r + files.countP (fun kv =>
            delete_object kv.1 (kv.2.delete_marker_id.getD "")),
         f + files.countP (fun kv =>
            !delete_object kv.1 (kv.2.delete_marker_id.getD "")),
         c ++ files.map (fun kv =>
            StoreAction.deleteVersion kv.1 (kv.2.delete_marker_id.getD ""))) := by
  induction files with
  | nil =>
    intro r f c _
    simp
  | cons kv rest ih =>
    intro r f c hpres
    have hv := hpres kv (List.mem_cons_self _ _)
    rcases hvid : kv.2.delete_marker_id with _ | vid
    · rw [hvid] at hv
      simp at hv
    · rw [List.foldl_cons]
      have hstep : S3RestoreDeleted.restoreStep delete_object false
          (r, f, c) kv =
          if delete_object kv.1 vid then
            (r + 1, f, c ++ [StoreAction.deleteVersion kv.1 vid])
          else (r, f + 1, c ++ [StoreAction.deleteVersion kv.1 vid]) := by
        unfold S3RestoreDeleted.restoreStep
        rw [hvid]
        simp
      rw [hstep]
      cases hdel : delete_object kv.1 vid
      · simp only [Bool.false_eq_true, if_false]
        rw [ih r (f + 1) (c ++ [StoreAction.deleteVersion kv.1 vid])
          (fun x hx => hpres x (List.mem_cons_of_mem _ hx))]
        simp only [Prod.mk.injEq, List.countP_cons, List.map_cons, hvid,
          Option.getD_some, hdel]
        refine ⟨by simp, by simp; omega, by simp⟩
      · simp only [if_true]
        rw [ih (r + 1) f (c ++ [StoreAction.deleteVersion kv.1 vid])
          (fun x hx => hpres x (List.mem_cons_of_mem _ hx))]
        simp only [Prod.mk.injEq, List.countP_cons, List.map_cons, hvid,
          Option.getD_some, hdel]
        refine ⟨by simp; omega, by simp, by simp⟩

theorem s3bulk_calls_copy (copy_object : String → String → Bool)
    (files : List (String × BulkVersion)) (dry : Bool) :
    ∀ (acc : Nat × Nat × List StoreAction) (a : StoreAction),
      a ∈ (files.foldl (S3BulkRestore.restoreStep copy_object dry) acc).2.2 →
      a ∈ acc.2.2 ∨ a.isDelete = false := by
  induction files with
  | nil =>
    intro acc a ha
    exact Or.inl ha
  | cons kv rest ih =>
    intro acc a ha
    rw [List.foldl_cons] at ha
    rcases ih _ a ha with h | h
    · unfold S3BulkRestore.restoreStep at h
      cases hd : dry
      · rw [hd] at h
        simp only [Bool.false_eq_true, if_false] at h
        cases hc : copy_object kv.1 kv.2.version_id <;>
          · rw [hc] at h
            simp only [Bool.false_eq_true, if_false, if_true] at h
            rcases List.mem_append.mp h with h' | h'
            · exact Or.inl h'
            · right
              rcases List.mem_singleton.mp h' with rfl
              rfl
      · rw [hd] at h
        simp only [if_true] at h
        exact Or.inl h
    · exact Or.inr h

theorem b2_calls_copy (bucket_copy : String → String → Bool)
    (files : List (String × B2Version)) (dry : Bool) :
    ∀ (acc : Nat × Nat × List StoreAction) (a : StoreAction),
      a ∈ (files.foldl (B2BulkRestore.unhideStep bucket_copy dry) acc).2.2 →
      a ∈ acc.2.2 ∨ a.isDelete = false := by
  induction files with
  | nil =>
    intro acc a ha
    exact Or.inl ha
  | cons kv rest ih =>
    intro acc a ha
    rw [List.foldl_cons] at ha
    rcases ih _ a ha with h | h
    · unfold B2BulkRestore.unhideStep at h
      cases hd : dry
      · rw [hd] at h
        simp only [Bool.false_eq_true, if_false] at h
        cases hc : bucket_copy kv.2.file_id kv.1 <;>
          · rw [hc] at h
            simp only [Bool.false_eq_true, if_false, if_true] at h
            rcases List.mem_append.mp h with h' | h'
            · exact Or.inl h'
            · right
              rcases List.mem_singleton.mp h' with rfl
              rfl
      · rw [hd] at h
        simp only [if_true] at h
        exact Or.inl h
    · exact Or.inr h

theorem s3rd_calls_shape (delete_object : String → String → Bool)
    (files : List (String × FileInfo)) (dry : Bool) :
    ∀ (acc : Nat × Nat × List StoreAction) (a : StoreAction),
      a ∈ (files.foldl (S3RestoreDeleted.restoreStep delete_object dry)
        acc).2.2 →
      a ∈ acc.2.2 ∨ ∃ kv ∈ files, ∃ vid, kv.2.delete_marker_id = some vid ∧
        a = StoreAction.deleteVersion kv.1 vid := by
  induction files with
  | nil =>
    intro acc a ha
    exact Or.inl ha
  | cons kv rest ih =>
    intro acc a ha
    rw [List.foldl_cons] at ha
    rcases ih _ a ha with h | h
    · unfold S3RestoreDeleted.restoreStep at h
      cases hd : dry
      · rw [hd] at h
        simp only [Bool.false_eq_true, if_false] at h
        rcases hvid : kv.2.delete_marker_id with _ | vid
        · rw [hvid] at h
          exact Or.inl h
        · rw [hvid] at h
          cases hc : delete_object kv.1 vid <;>
            · simp only [hc] at h
              simp only [Bool.false_eq_true, if_false, if_true] at h
              rcases List.mem_append.mp h with h' | h'
              · exact Or.inl h'
              · right
                rcases List.mem_singleton.mp h' with rfl
                exact ⟨kv, List.mem_cons_self _ _, vid, hvid, rfl⟩
      · rw [hd] at h
        simp only [if_true] at h
        exact Or.inl h
    · right
      rcases h with ⟨kv', hkv', vid, hvid, rfl⟩
      exact ⟨kv', List.mem_cons_of_mem _ hkv', vid, hvid, rfl⟩

/-! ## Map-commutation lemmas for the stable sort -/

theorem insertDesc_map {α β : Type} (ts : α → Nat) (ts' : β → Nat) (g : α → β)
    (hg : ∀ a, ts' (g a) = ts a) (x : α) (l : List α) :
    insertDesc ts' (g x) (l.map g) = (insertDesc ts x l).map g := by
  induction l with
  | nil => rfl
  | cons y ys ih =>
    simp only [List.map_cons, insertDesc, hg]
    by_cases h : ts y ≤ ts x
    · simp [h]
    · simp [h, ih]

theorem sortDesc_map {α β : Type} (ts : α → Nat) (ts' : β → Nat) (g : α → β)
    (hg : ∀ a, ts' (g a) = ts a) (l : List α) :
    sortDesc ts' (l.map g) = (sortDesc ts l).map g := by
  induction l with
  | nil => rfl
  | cons x xs ih =>
    rw [List.map_cons, sortDesc_cons, sortDesc_cons, ih,
      insertDesc_map ts ts' g hg]

theorem glv_select_is_latest_invariant (lst : List BulkVersion) (b : Bool) :
    S3BulkRestore.glv_select (lst.map (fun v => { v with is_latest := b })) =
      (S3BulkRestore.glv_select lst).map (fun v => { v with is_latest := b }) := by
  unfold S3BulkRestore.glv_select
  rw [sortDesc_map (fun x : BulkVersion => x.timestamp)
    (fun x : BulkVersion => x.timestamp)
    (fun v => { v with is_latest := b }) (fun a => rfl) lst]
  cases hh : (sortDesc (fun x : BulkVersion => x.timestamp) lst).head?
  · simp [hh]
  · rename_i v0
    simp only [List.head?_map, hh, Option.map_some']
    cases hm : v0.is_delete_marker
    · simp [hm, List.find?_map, Function.comp]
    · simp [hm, List.find?_map, Function.comp]
      rfl

/-! ## Claim theorems -/

/-- Claim C1 (code evaluation at the failing input): on the spec's scenario A
history, both delete-marker-mode classifiers map key A to
`previous_version_id = v1` with `size = 80` — the last-listed (oldest)
non-latest version — not to the most recent content version v2 (100 B) that
the spec (and the code's own comment, "Find the latest real version before the
delete marker") calls for. -/
theorem C1_delete_marker_target_eval :
    dictFind (S3RestoreDeleted.get_restorable_files [scenarioAPage]) "A" =
      some { delete_marker_id := some "v3", deleted_at := some 3,
             previous_version_id := some "v1", size := some 80,
             last_modified := some 1 } ∧
    dictFind (S3VersionRestore.get_restorable_files [scenarioAPage] false)
        "A" =
      some { delete_marker_id := some "v3", deleted_at := some 3,
             previous_version_id := some "v1", size := some 80,
             last_modified := some 1 } ∧
    (some "v1" : Option String) ≠ some "v2" := by
  refine ⟨by decide, by decide, by decide⟩

/-- Claim C2 counterexample: on `inconsistentPage`, whose most recent record
for key A by stable timestamp-descending sort is the Content record v2, the
delete-marker-removal classifier of s3-restore-deleted.py still includes A in
its plan — it decided recency from the store-supplied `IsLatest` flag, not by
sorting, so the claim as stated is false on this input. -/
theorem C2_counterexample :
    (dictFind (S3RestoreDeleted.get_restorable_files [inconsistentPage])
        "A").isSome = true ∧
    (sortDesc (fun r => r.timestamp) inconsistentRecords).head? =
      some { kind := RecKind.content, version_id := "v2", timestamp := 5 } := by
  refine ⟨by decide, by decide⟩

/-- Claim C2 (amended): only the bulk classifiers determine a key's state by
stable timestamp-descending sorting. For `get_latest_live_versions` (both
s3-bulk-restore.py and b2-bulk-restore.py) the plan entry of each key is a
function of that key's record list alone through the sort-based selection
`glv_select`, and the s3 selection is unaffected by rewriting every record's
`is_latest` flag; the `get_restorable_files` classifiers instead decide
recency from the store-supplied `IsLatest` flag (see the counterexample). -/
theorem C2_sorted_classification :
    (∀ (versions : List (String × List BulkVersion)) (k : String)
        (lst : List BulkVersion),
        (versions.map Prod.fst).Nodup → (k, lst) ∈ versions →
        dictFind (S3BulkRestore.get_latest_live_versions versions).1 k =
          S3BulkRestore.glv_select lst) ∧
    (∀ (versions : List (String × List B2Version)) (k : String)
        (lst : List B2Version),
        (versions.map Prod.fst).Nodup → (k, lst) ∈ versions →
        dictFind (B2BulkRestore.get_latest_live_versions versions).1 k =
          B2BulkRestore.glv_select lst) ∧
    (∀ (lst : List BulkVersion) (b : Bool),
        S3BulkRestore.glv_select
            (lst.map (fun v => { v with is_latest := b })) =
          (S3BulkRestore.glv_select lst).map
            (fun v => { v with is_latest := b })) := by
  refine ⟨?_, ?_, ?_⟩
  · intro versions k lst hn hmem
    exact s3bulk_glv_lookup versions k lst hn hmem
  · intro versions k lst hn hmem
    exact b2_glv_lookup versions k lst hn hmem
  · intro lst b
    exact glv_select_is_latest_invariant lst b

/-- Witness for C2's amended theorem, at the concrete two-key history. -/
theorem C2_sorted_classification_witness :
    dictFind (S3BulkRestore.get_latest_live_versions demoBulkVersions).1 "A" =
      S3BulkRestore.glv_select demoBulkA :=
  C2_sorted_classification.1 demoBulkVersions "A" demoBulkA
    (by decide) (by decide)

/-- Claim C3 counterexample: executing the delete-marker-removal plan
`markerPlan` issues `delete_object` for version m1 of key A — a version of the
key IS deleted by this policy (namely the delete marker's version), so the
claim's parenthetical "no version of the key is deleted by these two policies"
is false on this input. -/
theorem C3_counterexample :
    StoreAction.deleteVersion "A" "m1" ∈
      (S3RestoreDeleted.restore_versions (fun _ _ => true) markerPlan
        false).2.2 ∧
    (StoreAction.deleteVersion "A" "m1").isDelete = true := by
  refine ⟨by decide, by decide⟩

/-- Claim C3 (amended): the unhide and delete-marker-removal policies never
destroy the superseded artifact. The copy-based executors (s3-bulk-restore.py
and b2-bulk-restore.py) issue no delete at all; the marker-deleting executor
(s3-restore-deleted.py) only ever deletes an entry's `delete_marker_id`, so
whenever every plan entry for a key has a marker id different from a given
content version id, no delete of that content version is issued. -/
theorem C3_read_safety :
    (∀ (copy_object : String → String → Bool)
        (files : List (String × BulkVersion)) (dry : Bool) (a : StoreAction),
        a ∈ (S3BulkRestore.restore_versions copy_object files dry).2.2 →
        a.isDelete = false) ∧
    (∀ (bucket_copy : String → String → Bool)
        (files : List (String × B2Version)) (dry : Bool) (a : StoreAction),
        a ∈ (B2BulkRestore.unhide_versions bucket_copy files dry).2.2 →
        a.isDelete = false) ∧
    (∀ (delete_object : String → String → Bool)
        (files : List (String × FileInfo)) (dry : Bool) (k pv : String),
        (∀ kv ∈ files, kv.1 = k → kv.2.delete_marker_id ≠ some pv) →
        StoreAction.deleteVersion k pv ∉
          (S3RestoreDeleted.restore_versions delete_object files dry).2.2) := by
  refine ⟨?_, ?_, ?_⟩
  · intro copy_object files dry a ha
    unfold S3BulkRestore.restore_versions at ha
    rcases s3bulk_calls_copy copy_object files dry (0, 0, []) a ha with h | h
    · simp at h
    · exact h
  · intro bucket_copy files dry a ha
    unfold B2BulkRestore.unhide_versions at ha
    rcases b2_calls_copy bucket_copy files dry (0, 0, []) a ha with h | h
    · simp at h
    · exact h
  · intro delete_object files dry k pv hsafe hmem
    unfold S3RestoreDeleted.restore_versions at hmem
    rcases s3rd_calls_shape delete_object files dry (0, 0, []) _ hmem
      with h | h
    · simp at h
    · rcases h with ⟨kv, hkv, vid, hvid, heq⟩
      have hk : k = kv.1 ∧ pv = vid := by
        cases heq
        exact ⟨rfl, rfl⟩
      refine hsafe kv hkv hk.1.symm ?_
      rw [hvid, hk.2]

/-- Witness for C3's amended theorem: on `markerPlan`, no delete of the
superseded content version v1 of key A is ever issued. -/
theorem C3_read_safety_witness :
    StoreAction.deleteVersion "A" "v1" ∉
      (S3RestoreDeleted.restore_versions (fun _ _ => true) markerPlan
        false).2.2 :=
  C3_read_safety.2.2 (fun _ _ => true) markerPlan false "A" "v1" (by decide)

/-- Claim C4: in dry-run mode every executor issues no storage mutation call
(neither delete nor copy) and returns `restored = 0` and `failed = 0`, for
every plan and every transport oracle. -/
theorem C4_dry_run_no_mutation :
    (∀ (delete_object : String → String → Bool)
        (files : List (String × FileInfo)) (rp : Bool),
        S3VersionRestore.restore_versions delete_object files rp true =
          (0, 0, [])) ∧
    (∀ (delete_object : String → String → Bool)
        (files : List (String × FileInfo)),
        S3RestoreDeleted.restore_versions delete_object files true =
          (0, 0, [])) ∧
    (∀ (copy_object : String → String → Bool)
        (files : List (String × BulkVersion)),
        S3BulkRestore.restore_versions copy_object files true = (0, 0, [])) ∧
    (∀ (bucket_copy : String → String → Bool)
        (files : List (String × B2Version)),
        B2BulkRestore.unhide_versions bucket_copy files true = (0, 0, [])) := by
  refine ⟨?_, ?_, ?_, ?_⟩
  · intro delete_object files rp
    unfold S3VersionRestore.restore_versions
    exact foldl_id_of_step_id _ (fun b a => by
      simp [S3VersionRestore.restoreStep]) files (0, 0, [])
  · intro delete_object files
    unfold S3RestoreDeleted.restore_versions
    exact foldl_id_of_step_id _ (fun b a => by
      simp [S3RestoreDeleted.restoreStep]) files (0, 0, [])
  · intro copy_object files
    unfold S3BulkRestore.restore_versions
    exact foldl_id_of_step_id _ (fun b a => by
      simp [S3BulkRestore.restoreStep]) files (0, 0, [])
  · intro bucket_copy files
    unfold B2BulkRestore.unhide_versions
    exact foldl_id_of_step_id _ (fun b a => by
      simp [B2BulkRestore.unhideStep]) files (0, 0, [])

theorem countP_bool_split {α : Type} (p : α → Bool) (l : List α) :
    l.countP p + l.countP (fun a => !p a) = l.length := by
  induction l with
  | nil => rfl
  | cons x xs ih =>
    cases hx : p x <;> simp [List.countP_cons, hx] <;> omega

theorem map_act_one_per_key {β : Type} (files : List (String × β))
    (act : String × β → StoreAction) (hact : ∀ kv, (act kv).key = kv.1)
    (hn : (files.map Prod.fst).Nodup) (k : String)
    (hk : k ∈ files.map Prod.fst) :
    (files.map act).countP (fun a => a.key == k) = 1 := by
  rw [List.countP_map]
  have h1 : ((fun a : StoreAction => a.key == k) ∘ act) =
      (fun kv : String × β => kv.1 == k) := by
    funext kv
    simp [Function.comp, hact]
  rw [h1]
  have h2 : files.countP (fun kv => kv.1 == k) =
      (files.map Prod.fst).countP (fun x => x == k) := by
    rw [List.countP_map]
    rfl
  rw [h2]
  have h3 : (files.map Prod.fst).countP (fun x => x == k) =
      (files.map Prod.fst).count k := rfl
  rw [h3]
  exact List.count_eq_one_of_mem hn hk

/-- Claim C5: in an Apply run each per-key mutation is attempted
independently. For both marker-deleting executors, whenever every plan entry
carries the version id its mode reads, the run returns `restored` equal to the
number of entries whose `delete_object` call succeeded, `failed` equal to the
number whose call raised, `restored + failed` equal to the plan size (so a
failure never aborts the loop), and the issued calls are exactly one delete
per entry in plan order — hence exactly one mutation request per key when the
plan's keys are distinct. -/
theorem C5_failure_isolation :
    (∀ (delete_object : String → String → Bool) (rp : Bool)
        (files : List (String × FileInfo)),
        (∀ kv ∈ files, (vidFor rp kv.2).isSome = true) →
        S3VersionRestore.restore_versions delete_object files rp false =
          (files.countP (fun kv =>
              delete_object kv.1 ((vidFor rp kv.2).getD "")),
           files.countP (fun kv =>
              !delete_object kv.1 ((vidFor rp kv.2).getD "")),
           files.map (fun kv =>
              StoreAction.deleteVersion kv.1 ((vidFor rp kv.2).getD ""))) ∧
        files.countP (fun kv =>
            delete_object kv.1 ((vidFor rp kv.2).getD "")) +
          files.countP (fun kv =>
            !delete_object kv.1 ((vidFor rp kv.2).getD "")) =
          files.length ∧
        ((files.map Prod.fst).Nodup → ∀ k ∈ files.map Prod.fst,
          (S3VersionRestore.restore_versions delete_object files rp
              false).2.2.countP (fun a => a.key == k) = 1)) ∧
    (∀ (delete_object : String → String → Bool)
        (files : List (String × FileInfo)),
        (∀ kv ∈ files, kv.2.delete_marker_id.isSome = true) →
        S3RestoreDeleted.restore_versions delete_object files false =
          (files.countP (fun kv =>
              delete_object kv.1 (kv.2.delete_marker_id.getD "")),
           files.countP (fun kv =>
              !delete_object kv.1 (kv.2.delete_marker_id.getD "")),
           files.map (fun kv =>
              StoreAction.deleteVersion kv.1 (kv.2.delete_marker_id.getD ""))) ∧
        files.countP (fun kv =>
            delete_object kv.1 (kv.2.delete_marker_id.getD "")) +
          files.countP (fun kv =>
            !delete_object kv.1 (kv.2.delete_marker_id.getD "")) =
          files.length ∧
        ((files.map Prod.fst).Nodup → ∀ k ∈ files.map Prod.fst,
          (S3RestoreDeleted.restore_versions delete_object files
              false).2.2.countP (fun a => a.key == k) = 1)) := by
  constructor
  · intro delete_object rp files hpres
    have heq : S3VersionRestore.restore_versions delete_object files rp
        false =
        (files.countP (fun kv =>
            delete_object kv.1 ((vidFor rp kv.2).getD "")),
         files.countP (fun kv =>
            !delete_object kv.1 ((vidFor rp kv.2).getD "")),
         files.map (fun kv =>
            StoreAction.deleteVersion kv.1 ((vidFor rp kv.2).getD ""))) := by
      unfold S3VersionRestore.restore_versions
      rw [s3vr_restore_aux delete_object rp files 0 0 [] hpres]
      simp
    refine ⟨heq, countP_bool_split _ files, ?_⟩
    intro hnodup k hk
    rw [heq]
    exact map_act_one_per_key files
      (fun kv => StoreAction.deleteVersion kv.1 ((vidFor rp kv.2).getD ""))
      (fun kv => rfl) hnodup k hk
  · intro delete_object files hpres
    have heq : S3RestoreDeleted.restore_versions delete_object files false =
        (files.countP (fun kv =>
            delete_object kv.1 (kv.2.delete_marker_id.getD "")),
         files.countP (fun kv =>
            !delete_object kv.1 (kv.2.delete_marker_id.getD "")),
         files.map (fun kv =>
            StoreAction.deleteVersion kv.1 (kv.2.delete_marker_id.getD ""))) := by
      unfold S3RestoreDeleted.restore_versions
      rw [s3rd_restore_aux delete_object files 0 0 [] hpres]
      simp
    refine ⟨heq, countP_bool_split _ files, ?_⟩
    intro hnodup k hk
    rw [heq]
    exact map_act_one_per_key files
      (fun kv => StoreAction.deleteVersion kv.1 (kv.2.delete_marker_id.getD ""))
      (fun kv => rfl) hnodup k hk

/-- Witness for C5: on a two-key plan with an oracle that succeeds on key A
and raises on key B, the run reports one success, one failure, and one delete
request per key, in plan order. -/
theorem C5_failure_isolation_witness :
    S3VersionRestore.restore_versions (fun k _ => k == "A")
        restorePlanTwoKeys false false =
      (1, 1, [StoreAction.deleteVersion "A" "mA",
              StoreAction.deleteVersion "B" "mB"]) := by
  have h := (C5_failure_isolation.1 (fun k _ => k == "A") false
    restorePlanTwoKeys (by decide)).1
  rw [h]
  decide

/-- Claim C6: under the reversion policy, for a key whose version stream (the
transport's records for that key, newest first with only the first flagged
latest, timestamps descending) starts with content records `r0, r1, ...`, the
plan maps the key to target `r1` — the second content record scanning forward,
the one immediately preceding the current one — with superseding current
version `r0`, and the target's version id differs from the superseding one
whenever the two records' ids differ (version ids are unique within a key's
history). -/
theorem C6_reversion_target (pages : List S3Page) (k : String)
    (r0 r1 : S3Version) (rest : List S3Version)
    (hstream : prevStreamFor pages k = r0 :: r1 :: rest)
    (hlat : r0.is_latest = true)
    (hrest : ∀ r ∈ r1 :: rest, r.is_latest = false)
    (_hdesc : List.Chain' (fun a b => b.last_modified ≤ a.last_modified)
      (r0 :: r1 :: rest))
    (hne : r0.version_id ≠ r1.version_id) :
    dictFind (S3VersionRestore.get_restorable_files pages true) k =
      some { current_version_id := some r0.version_id,
             current_size := some r0.size,
             current_modified := some r0.last_modified,
             previous_version_id := some r1.version_id,
             previous_size := some r1.size,
             previous_modified := some r1.last_modified } ∧
    some r1.version_id ≠ some r0.version_id := by
  have hr1 : r1.is_latest = false := hrest r1 (List.mem_cons_self _ _)
  have hfind : dictFind (prevCollect pages) k =
      some { current_version_id := some r0.version_id,
             current_size := some r0.size,
             current_modified := some r0.last_modified,
             previous_version_id := some r1.version_id,
             previous_size := some r1.size,
             previous_modified := some r1.last_modified } := by
    rw [prevCollect_eq_flatten, dictFind_foldl_prevStep]
    unfold prevStreamFor at hstream
    rw [hstream]
    rw [show dictFind ([] : List (String × FileInfo)) k = none from rfl]
    rw [List.foldl_cons, List.foldl_cons]
    rw [show prevStepK none r0 =
        some { current_version_id := some r0.version_id,
               current_size := some r0.size,
               current_modified := some r0.last_modified } from by
      simp [prevStepK, hlat]]
    rw [show prevStepK
        (some { current_version_id := some r0.version_id,
                current_size := some r0.size,
                current_modified := some r0.last_modified }) r1 =
        some { current_version_id := some r0.version_id,
               current_size := some r0.size,
               current_modified := some r0.last_modified,
               previous_version_id := some r1.version_id,
               previous_size := some r1.size,
               previous_modified := some r1.last_modified } from by
      simp [prevStepK, hr1]]
    exact foldl_prevStepK_stable rest _
      (fun r hr => hrest r (List.mem_cons_of_mem _ hr)) rfl
  have hnodup : ((prevCollect pages).map Prod.fst).Nodup := by
    rw [prevCollect_eq_flatten]
    exact nodup_keys_foldl_prevStep _ [] (by simp)
  constructor
  · rw [show S3VersionRestore.get_restorable_files pages true =
        (prevCollect pages).filter
          (fun kv => kv.2.previous_version_id.isSome) from rfl]
    rw [dictFind_filter (fun info : FileInfo => info.previous_version_id.isSome)
      (prevCollect pages) k hnodup]
    rw [hfind]
    simp
  · intro h
    exact hne (Option.some.inj h).symm

/-- Witness for C6, at the spec's scenario B history: target v1 (40 B),
superseding v2 (50 B). -/
theorem C6_reversion_target_witness :
    dictFind (S3VersionRestore.get_restorable_files [scenarioBPage] true)
        "B" =
      some { current_version_id := some "v2", current_size := some 50,
             current_modified := some 2, previous_version_id := some "v1",
             previous_size := some 40, previous_modified := some 1 } ∧
    (some "v1" : Option String) ≠ some "v2" :=
  C6_reversion_target [scenarioBPage] "B"
    { key := "B", version_id := "v2", size := 50, last_modified := 2,
      is_latest := true }
    { key := "B", version_id := "v1", size := 40, last_modified := 1,
      is_latest := false }
    [] (by decide) (by decide) (by decide) (by simp [List.chain'_cons])
    (by decide)

/-- Claim C7: keys whose most recent record (by stable timestamp-descending
sort) is a content record are excluded from the sort-based hidden/deleted-file
plans; keys with no qualifying target (every record a marker/hide, e.g. a
delete marker with no prior content version) are excluded without error; and
the spec's scenario C single-content-version history is excluded from every
policy's plan in all four scripts. -/
theorem C7_exclusions :
    (∀ (versions : List (String × List BulkVersion)) (k : String)
        (lst : List BulkVersion),
        (versions.map Prod.fst).Nodup → (k, lst) ∈ versions →
        (∀ v0, (sortDesc (fun x => x.timestamp) lst).head? = some v0 →
          v0.is_delete_marker = false →
          dictFind (S3BulkRestore.get_latest_live_versions versions).1 k =
            none) ∧
        ((∀ v ∈ lst, v.is_delete_marker = true) →
          dictFind (S3BulkRestore.get_latest_live_versions versions).1 k =
            none)) ∧
    (∀ (versions : List (String × List B2Version)) (k : String)
        (lst : List B2Version),
        (versions.map Prod.fst).Nodup → (k, lst) ∈ versions →
        (∀ v0, (sortDesc (fun x => x.timestamp) lst).head? = some v0 →
          v0.action ≠ "hide" →
          dictFind (B2BulkRestore.get_latest_live_versions versions).1 k =
            none) ∧
        ((∀ v ∈ lst, v.action ≠ "upload") →
          dictFind (B2BulkRestore.get_latest_live_versions versions).1 k =
            none)) ∧
    (dictFind (S3BulkRestore.get_latest_live_versions singleContentBulk).1
        "C" = none ∧
     dictFind (B2BulkRestore.get_latest_live_versions singleContentB2).1
        "C" = none ∧
     dictFind (S3RestoreDeleted.get_restorable_files [singleContentPage])
        "C" = none ∧
     dictFind (S3VersionRestore.get_restorable_files [singleContentPage]
        true) "C" = none ∧
     dictFind (S3VersionRestore.get_restorable_files [singleContentPage]
        false) "C" = none) := by
  refine ⟨?_, ?_, by decide, by decide, by decide, by decide, by decide⟩
  · intro versions k lst hn hmem
    rw [s3bulk_glv_lookup versions k lst hn hmem]
    constructor
    · intro v0 hh hm
      unfold S3BulkRestore.glv_select
      simp [hh, hm]
    · intro hall
      unfold S3BulkRestore.glv_select
      cases hh : (sortDesc (fun x => x.timestamp) lst).head?
      · simp [hh]
      · rename_i v0
        have hv0 : v0 ∈ lst := by
          refine (mem_sortDesc (fun x => x.timestamp) lst v0).mp ?_
          exact List.mem_of_mem_head? hh
        have hm : v0.is_delete_marker = true := hall v0 hv0
        have hfind : (sortDesc (fun x => x.timestamp) lst).find?
            (fun v => !v.is_delete_marker) = none := by
          rw [List.find?_eq_none]
          intro x hx
          have : x ∈ lst := (mem_sortDesc (fun x => x.timestamp) lst x).mp hx
          simp [hall x this]
        simp [hh, hm, hfind]
  · intro versions k lst hn hmem
    rw [b2_glv_lookup versions k lst hn hmem]
    constructor
    · intro v0 hh hv0
      unfold B2BulkRestore.glv_select
      have : (v0.action != "hide") = true := by
        simp [bne_iff_ne]
        exact hv0
      simp [hh, this]
    · intro hall
      unfold B2BulkRestore.glv_select
      have hfind : (sortDesc (fun x => x.timestamp) lst).find?
          (fun v => v.action == "upload") = none := by
        rw [List.find?_eq_none]
        intro x hx
        have : x ∈ lst := (mem_sortDesc (fun x => x.timestamp) lst x).mp hx
        simp [hall x this]
      cases hh : (sortDesc (fun x => x.timestamp) lst).head?
      · simp [hh, hfind]
      · rename_i v0
        cases ha : v0.action != "hide"
        · simp [hh, ha, hfind]
        · simp [hh, ha]

/-- Witness for C7's universally quantified parts, at the scenario C
histories. -/
theorem C7_exclusions_witness :
    dictFind (S3BulkRestore.get_latest_live_versions singleContentBulk).1
        "C" = none ∧
    dictFind (B2BulkRestore.get_latest_live_versions singleContentB2).1
        "C" = none := by
  constructor
  · exact (C7_exclusions.1 singleContentBulk "C" [bulkContentC] (by decide)
      (by decide)).1 bulkContentC (by decide) (by decide)
  · exact (C7_exclusions.2.1 singleContentB2 "C" [b2UploadC] (by decide)
      (by decide)).1 b2UploadC (by decide) (by decide)

/-- Claim C8: for both sort-based classifiers, the reported total restorable
bytes is exactly the sum of the selected entries' sizes over the plan. -/
theorem C8_total_bytes :
    (∀ (versions : List (String × List BulkVersion)),
        (versions.map Prod.fst).Nodup →
        (S3BulkRestore.get_latest_live_versions versions).2 =
          ((S3BulkRestore.get_latest_live_versions versions).1.map
            (fun kv => kv.2.size)).sum) ∧
    (∀ (versions : List (String × List B2Version)),
        (versions.map Prod.fst).Nodup →
        (B2BulkRestore.get_latest_live_versions versions).2 =
          ((B2BulkRestore.get_latest_live_versions versions).1.map
            (fun kv => kv.2.size)).sum) := by
  constructor
  · intro versions hn
    rw [s3bulk_glv_eq versions hn]
  · intro versions hn
    rw [b2_glv_eq versions hn]

/-- Witness for C8, at the concrete two-key histories. -/
theorem C8_total_bytes_witness :
    (S3BulkRestore.get_latest_live_versions demoBulkVersions).2 =
      ((S3BulkRestore.get_latest_live_versions demoBulkVersions).1.map
        (fun kv => kv.2.size)).sum ∧
    (B2BulkRestore.get_latest_live_versions demoB2Versions).2 =
      ((B2BulkRestore.get_latest_live_versions demoB2Versions).1.map
        (fun kv => kv.2.size)).sum :=
  ⟨C8_total_bytes.1 demoBulkVersions (by decide),
   C8_total_bytes.2 demoB2Versions (by decide)⟩

/-- Claim C9: `check_versioning_status` rejects a bucket that never had
versioning enabled (absent or empty `Status`) and a transport that reports
versioning as unsupported (`NotImplemented`), and `main` then terminates with
`versioningRefused` before any listing or mutation; `Enabled` and `Suspended`
pass the gate, and `main` proceeds into the post-gate pipeline
(`proceedRun`). -/
theorem C9_versioning_gate :
    S3VersionRestore.check_versioning_status (.response none) =
      .ok false ∧
    S3VersionRestore.check_versioning_status (.response (some "")) =
      .ok false ∧
    S3VersionRestore.check_versioning_status .notImplementedError =
      .ok false ∧
    S3VersionRestore.check_versioning_status (.response (some "Enabled")) =
      .ok true ∧
    S3VersionRestore.check_versioning_status (.response (some "Suspended")) =
      .ok true ∧
    (∀ pages rp ex c del,
      S3VersionRestore.main (.response none) pages rp ex c del =
        .versioningRefused) ∧
    (∀ pages rp ex c del,
      S3VersionRestore.main (.response (some "")) pages rp ex c del =
        .versioningRefused) ∧
    (∀ pages rp ex c del,
      S3VersionRestore.main .notImplementedError pages rp ex c del =
        .versioningRefused) ∧
    (∀ pages rp ex c del,
      S3VersionRestore.main (.response (some "Enabled")) pages rp ex c del =
        S3VersionRestore.proceedRun pages rp ex c del) ∧
    (∀ pages rp ex c del,
      S3VersionRestore.main (.response (some "Suspended")) pages rp ex c
          del =
        S3VersionRestore.proceedRun pages rp ex c del) := by
  refine ⟨rfl, rfl, rfl, rfl, rfl, ?_, ?_, ?_, ?_, ?_⟩ <;>
  · intro pages rp ex c del
    rfl

/-- Claim C10: a key whose collected history is the empty record list is
skipped by both sort-based classifiers (the head inspection is reached only
through the emptiness-guarded condition, so there is no out-of-bounds access)
and the key is absent from the resulting plan. -/
theorem C10_empty_history :
    (∀ (versions : List (String × List BulkVersion)) (k : String),
        (versions.map Prod.fst).Nodup →
        (k, ([] : List BulkVersion)) ∈ versions →
        dictFind (S3BulkRestore.get_latest_live_versions versions).1 k =
          none) ∧
    (∀ (versions : List (String × List B2Version)) (k : String),
        (versions.map Prod.fst).Nodup →
        (k, ([] : List B2Version)) ∈ versions →
        dictFind (B2BulkRestore.get_latest_live_versions versions).1 k =
          none) := by
  constructor
  · intro versions k hn hmem
    rw [s3bulk_glv_lookup versions k [] hn hmem]
    rfl
  · intro versions k hn hmem
    rw [b2_glv_lookup versions k [] hn hmem]
    rfl

/-- Witness for C10, at concrete histories in which key E has an empty record
list. -/
theorem C10_empty_history_witness :
    dictFind (S3BulkRestore.get_latest_live_versions emptyHistoryBulk).1
        "E" = none ∧
    dictFind (B2BulkRestore.get_latest_live_versions emptyHistoryB2).1
        "E" = none :=
  ⟨C10_empty_history.1 emptyHistoryBulk "E" (by decide) (by decide),
   C10_empty_history.2 emptyHistoryB2 "E" (by decide) (by decide)⟩
